import Mathlib

/-!
Shallow embedding of `nlp/data_access/cql_result_parser.py` (ClarityNLP).

Keys of a flattened FHIR record are modelled as `List Char`; a flattened
record is an insertion-ordered association list, mirroring a Python dict
with unique keys.  Values carry the shapes the parser actually stores:
raw strings, integers (the derived list lengths), structured datetimes
(the result of datetime normalization), and two-element period mappings
(the one nested shape the flattening collaborator leaves intact, per the
spec's data model).

Two collaborators of the parser live outside `src/` and are modelled from
the spec where indicated: the flattening transform and the
time-of-day-decomposition module (`time_finder`).
-/

namespace CqlResultParser

/-- Abbreviation turning a string literal into the key/character-list form
used throughout the embedding. -/
def ks (s : String) : List Char := s.data

/-- Numeric value of a decimal digit character. -/
def digitVal (c : Char) : Nat := c.toNat - 48

/-- Numeric value of a list of decimal digit characters
(most significant first), as produced by Python `int` on a digit string. -/
def digitsVal (ds : List Char) : Nat := ds.foldl (fun a c => 10 * a + digitVal c) 0

/-- A value stored in a flattened record.  `period` is the two-element
start/end mapping that the flattening collaborator keeps nested (spec §3);
its members are raw strings, `none` standing for an absent member. -/
inductive Value : Type where
  | str (s : String)
  | num (n : Int)
  | dt (year month day : Nat) (timePart : Option (Nat × Nat × Nat × Nat × Int))
  | period (s e : Option String)
deriving DecidableEq, Repr

instance : Inhabited Value := ⟨.str ""⟩

/-- A flattened record: insertion-ordered key/value list with unique keys
(the image of a Python dict). -/
abbrev FlatRecord : Type := List (List Char × Value)

/-- Dict lookup: value of the first (and, for a dict image, only) entry
with the given key. -/
def rlookup (r : FlatRecord) (k : List Char) : Option Value :=
  match r with
  | [] => none
  | kv :: rest => if kv.fst = k then some kv.snd else rlookup rest k

/-- Dict assignment `r[k] = v`: replace the value of an existing key in
place, else append the new entry (Python dict insertion-order semantics). -/
def insertKV (k : List Char) (v : Value) (r : FlatRecord) : FlatRecord :=
  if r.any (fun kv => kv.fst = k) then
    r.map (fun kv => if kv.fst = k then (k, v) else kv)
  else r ++ [(k, v)]

/-- The Python exceptions the decoders can raise: a missing mapping key, an
undefined variable name, a missing module attribute, and an unsupported
subscript/membership operation. -/
inductive PyError : Type where
  | keyError (k : String)
  | nameError (n : String)
  | attributeError (n : String)
  | typeError
deriving DecidableEq, Repr

/-!  ## List-length inference (`_set_list_length`, lines 143-167)

The Python code compiles `'\A' + prefix_str + '_(?P<num>\d+)_?'` as a
regex and matches each key against it.  The embedding has two tiers:

* `matchNum`/`set_list_length` match the prefix literally.  This is the
  compiled pattern's behavior exactly when the prefix contains no regex
  metacharacter and keys are ASCII (so `\d` is the ASCII digit class);
  every prefix the decoders pass is of this form, except the
  uninterpolated template `reasonNotGiven_\x7b0\x7d_coding` in the
  MedicationAdministration decoder (where the braces act as a
  zero-repetition quantifier in the regex reading); under either reading
  that template matches no key produced by flattening, so the two
  readings agree on all records considered here.

* `reMatchNum`/`set_list_length_re` model the compiled pattern itself on
  the wider class of prefixes whose characters are regex-ordinary except
  for the wildcard `.` and top-level alternation `|`.  There the spliced
  pattern is an ordered alternation whose bare (non-final) alternatives
  carry no `num` group, so a key matching one of them makes the source
  execute `int(match.group('num'))` = `int(None)` and raise `TypeError`
  (line 156).  `set_list_length_re_literal` proves the two tiers agree on
  metacharacter-free prefixes.  -/

/-- Value captured by `(?P<num>\d+)` with an optional trailing underscore,
for a regex-metacharacter-free prefix (matched literally): the key must
start with `prefix` + `'_'` + at least one digit, and the captured number
is the maximal leading digit run (greedy `\d+`). -/
def matchNum (p k : List Char) : Option Nat :=
  if k.take (p.length + 1) = p ++ ['_'] then
    let ds := (k.drop (p.length + 1)).takeWhile Char.isDigit
    if ds.isEmpty then none else some (digitsVal ds)
  else none

/-- Spec-side reading of the key pattern (`prefix_<digits>` optionally
followed by `_`, matched at the start of the key): the key decomposes as
`prefix`, an underscore, a nonempty digit run, and an arbitrary remainder. -/
def specMatches (p k : List Char) : Prop :=
  ∃ ds rest, ds ≠ [] ∧ ds.all Char.isDigit ∧ k = p ++ ['_'] ++ ds ++ rest

/-- All captured indices of keys of `r` matching the prefix `p`. -/
def nums (p : List Char) (r : FlatRecord) : List Nat :=
  r.filterMap (fun kv => matchNum p kv.fst)

/-- The running maximum computed by the scan loop of `_set_list_length`:
`none` when no key matches, else the greatest captured index. -/
def maxNum (p : List Char) (r : FlatRecord) : Option Nat :=
  match nums p r with
  | [] => none
  | ns => some (ns.foldl max 0)

/-- The derived key `'len_' + prefix`. -/
def lenKey (p : List Char) : List Char := ks "len_" ++ p

/-- `_set_list_length(obj, prefix_str)`: returns the inferred count and the
updated record.  Returns `0` without mutation when no key matches;
otherwise writes `len_<prefix> = max_index + 1` and returns that count. -/
def set_list_length (p : List Char) (r : FlatRecord) : Nat × FlatRecord :=
  match maxNum p r with
  | none => (0, r)
  | some m => (m + 1, insertKV (lenKey p) (.num (m + 1)) r)

/-- A character the regex engine treats as an ordinary literal: ASCII and
not one of Python's special characters `. ^ $ * + ? \x7b \x7d [ ] \ | ( )`. -/
def regexOrdinary (c : Char) : Bool :=
  c.toNat < 128 &&
  !(['.', '^', '$', '*', '+', '?', '[', ']', '(', ')', '\\', '|',
     Char.ofNat 123, Char.ofNat 125].contains c)

/-- A prefix on which the spliced pattern matches exactly literally: every
character is regex-ordinary. -/
def regexLiteral (p : List Char) : Bool := p.all regexOrdinary

/-- A key made of ASCII characters, on which Python's `\d` coincides with
the ASCII digit class. -/
def asciiKey (k : List Char) : Bool := k.all (fun c => c.toNat < 128)

/-- One atom of a compiled alternative: a literal character or the
wildcard `.` (any character except a newline). -/
inductive ReAtom : Type where
  | lit (c : Char)
  | anyChar
deriving DecidableEq, Repr

/-- Compile one `|`-free segment of the prefix: `.` becomes the wildcard,
every other (regex-ordinary) character a literal. -/
def toAtoms (s : List Char) : List ReAtom :=
  s.map (fun c => if c = '.' then ReAtom.anyChar else ReAtom.lit c)

/-- Whether an atom matches one character. -/
def atomMatches (a : ReAtom) (x : Char) : Bool :=
  match a with
  | .lit c => c = x
  | .anyChar => x ≠ Char.ofNat 10

/-- Match an atom sequence against the start of a key, returning the
remainder on success (each atom consumes exactly one character, so no
backtracking arises). -/
def atomsMatchPrefix (as : List ReAtom) (k : List Char) : Option (List Char) :=
  match as, k with
  | [], k => some k
  | _ :: _, [] => none
  | a :: as, c :: k => if atomMatches a c then atomsMatchPrefix as k else none

/-- Split the prefix at top-level `|`, yielding the alternatives of the
compiled pattern (never empty; a `|`-free prefix yields itself). -/
def splitAlts (p : List Char) : List (List Char) :=
  match p with
  | [] => [[]]
  | c :: cs =>
    if c = '|' then [] :: splitAlts cs
    else
      match splitAlts cs with
      | s :: ss => (c :: s) :: ss
      | [] => [[c]]

/-- `re.match` of the spliced pattern `\A<prefix>_(?P<num>\d+)_?` followed
by the source's `num = int(match.group('num'))` (line 156), for prefixes
in the supported class: the alternatives are tried left to right; only the
last one carries the suffix `_(?P<num>\d+)_?` and hence the `num` group,
so a key matching an earlier, bare alternative produces a match whose
`num` group is unset and `int(None)` raises `TypeError`. -/
def reMatchAlts (alts : List (List Char)) (k : List Char) : Except PyError (Option Nat) :=
  match alts with
  | [] => .ok none
  | [last] =>
    match atomsMatchPrefix (toAtoms last) k with
    | none => .ok none
    | some rest =>
      match rest with
      | [] => .ok none
      | c :: rest2 =>
        if c = '_' then
          let ds := rest2.takeWhile Char.isDigit
          if ds.isEmpty then .ok none else .ok (some (digitsVal ds))
        else .ok none
  | seg :: alts =>
    match atomsMatchPrefix (toAtoms seg) k with
    | some _ => .error .typeError
    | none => reMatchAlts alts k

/-- The compiled-pattern reading of the per-key match (faithful for
prefixes whose only metacharacters are `.` and top-level `|`, against
ASCII keys). -/
def reMatchNum (p k : List Char) : Except PyError (Option Nat) :=
  reMatchAlts (splitAlts p) k

/-- The scan loop of `_set_list_length` under the compiled-pattern
reading: the captured indices of the keys in insertion order, raising at
the first key whose match leaves the `num` group unset. -/
def numsRe (p : List Char) (r : FlatRecord) : Except PyError (List Nat) :=
  match r with
  | [] => .ok []
  | kv :: rest =>
    (reMatchNum p kv.fst).bind (fun res =>
      (numsRe p rest).map (fun ns =>
        match res with
        | some n => n :: ns
        | none => ns))

/-- The running maximum of the scan under the compiled-pattern reading. -/
def maxNumRe (p : List Char) (r : FlatRecord) : Except PyError (Option Nat) :=
  (numsRe p r).map (fun ns =>
    match ns with
    | [] => none
    | ns => some (ns.foldl max 0))

/-- `_set_list_length(obj, prefix_str)` under the compiled-pattern
reading: as `set_list_length`, but matching each key against the spliced
regex, and propagating the `TypeError` the source raises when a key
matches a bare alternative. -/
def set_list_length_re (p : List Char) (r : FlatRecord) :
    Except PyError (Nat × FlatRecord) :=
  (maxNumRe p r).map (fun m =>
    match m with
    | none => (0, r)
    | some mm => (mm + 1, insertKV (lenKey p) (.num (mm + 1)) r))

/-!  ## Temporal value parsing (`_convert_datetimes`, lines 74-139)  -/

/-- Output record of the time-of-day decomposition collaborator
(`time_finder.TimeValue`).  Modelled from the spec: §6 gives the field
list (hours, minutes, seconds, nullable fractional seconds, nullable
UTC-offset sign / hours / minutes). -/
structure TimeValue : Type where
  hours : Nat
  minutes : Nat
  seconds : Nat
  fractional_seconds : Option Nat
  gmt_delta_sign : Option Char
  gmt_delta_hours : Option Nat
  gmt_delta_minutes : Option Nat
deriving DecidableEq, Repr

/-- Microsecond value of a fractional-second digit run.  Modelled from the
spec: the collaborator reports fractional seconds at microsecond
resolution (§4.1 "compute microseconds from fractional seconds" together
with the round-trip property of §8, where `.500` yields 500000);
sub-microsecond digits are dropped. -/
def fracMicros (ds : List Char) : Nat :=
  digitsVal (ds.take 6) * 10 ^ (6 - (ds.take 6).length)

/-- Modelled from the spec: the time-of-day decomposition collaborator
(`time_finder.run`), specified in §6.  The time substring has the shape
`HH:MM:SS`, optionally followed by a fractional part `.d+` and by a UTC
offset that is either `Z` or `±HH:MM`; absent parts yield `none` fields.
`none` overall stands for a violation of the collaborator's
exactly-one-result contract (never reached on the strings considered
here). -/
def decomposeTime (ts : List Char) : Option TimeValue :=
  match ts with
  | h1 :: h2 :: c1 :: m1 :: m2 :: c2 :: s1 :: s2 :: rest =>
    if h1.isDigit && h2.isDigit && c1 == ':' && m1.isDigit && m2.isDigit &&
       c2 == ':' && s1.isDigit && s2.isDigit then
      let hh := digitsVal [h1, h2]
      let mm := digitsVal [m1, m2]
      let ss := digitsVal [s1, s2]
      let fracRest : Option Nat × List Char :=
        match rest with
        | '.' :: r =>
          let ds := r.takeWhile Char.isDigit
          (if ds.isEmpty then none else some (fracMicros ds), r.dropWhile Char.isDigit)
        | r => (none, r)
      match fracRest.2 with
      | [] => some ⟨hh, mm, ss, fracRest.1, none, none, none⟩
      | ['Z'] => some ⟨hh, mm, ss, fracRest.1, none, none, none⟩
      | [sg, o1, o2, c3, o4, o5] =>
        if (sg == '+' || sg == '-') && o1.isDigit && o2.isDigit && c3 == ':' &&
           o4.isDigit && o5.isDigit then
          some ⟨hh, mm, ss, fracRest.1, some sg,
                some (digitsVal [o1, o2]), some (digitsVal [o4, o5])⟩
        else none
      | _ => none
    else none
  | _ => none

/-- UTC-offset computation of `_convert_datetimes` (lines 110-124), as the
total offset in minutes of the resulting `timezone` object: the sign
multiplier is applied to the hour component only, never to the minute
component, and absent components default to zero. -/
def computeOffsetMinutes (tv : TimeValue) : Int :=
  let mult : Int := match tv.gmt_delta_sign with
    | some sg => if sg = '-' then -1 else 1
    | none => 1
  let delta_hours : Int := match tv.gmt_delta_hours with
    | some h => mult * h
    | none => 0
  let delta_min : Int := match tv.gmt_delta_minutes with
    | some m => (m : Int)
    | none => 0
  delta_hours * 60 + delta_min

/-- The time components stored in the `datetime` built by
`_convert_datetimes` (lines 104-135): hour, minute, second, microsecond
(`int(fractional_seconds) % 999999`, or 0 when absent), and the UTC offset
in minutes. -/
def buildTime (tv : TimeValue) : Nat × Nat × Nat × Nat × Int :=
  let us := match tv.fractional_seconds with
    | some f => f % 999999
    | none => 0
  (tv.hours, tv.minutes, tv.seconds, us, computeOffsetMinutes tv)

/-- The date/time recognizer `_regex_datetime` (lines 35-37) combined with
the construction of the `datetime` object (lines 86-135): the string must
be exactly `YYYY-MM-DD`, optionally followed by `T` and a time substring
`\d\d:\d\d:\d\d[-+.Z\d:]*`.  A string with no time component gives a
date-only value (`timePart = none`); otherwise the time substring is
decomposed by the collaborator and a full instant is built.  A
non-matching string yields `none` (the entry is left untouched). -/
def parseDatetime (s : String) : Option Value :=
  match s.data with
  | y1 :: y2 :: y3 :: y4 :: c1 :: m1 :: m2 :: c2 :: d1 :: d2 :: rest =>
    if y1.isDigit && y2.isDigit && y3.isDigit && y4.isDigit && c1 == '-' &&
       m1.isDigit && m2.isDigit && c2 == '-' && d1.isDigit && d2.isDigit then
      let year := digitsVal [y1, y2, y3, y4]
      let month := digitsVal [m1, m2]
      let day := digitsVal [d1, d2]
      match rest with
      | [] => some (.dt year month day none)
      | 'T' :: ts =>
        match ts with
        | t1 :: t2 :: t3 :: t4 :: t5 :: t6 :: t7 :: t8 :: tail =>
          if t1.isDigit && t2.isDigit && t3 == ':' && t4.isDigit && t5.isDigit &&
             t6 == ':' && t7.isDigit && t8.isDigit &&
             tail.all (fun c => c.isDigit || c == '-' || c == '+' || c == '.' ||
                                c == 'Z' || c == ':') then
            match decomposeTime ts with
            | some tv => some (.dt year month day (some (buildTime tv)))
            | none => none
          else none
        | _ => none
      | _ => none
    else none
  | _ => none

/-- `_convert_datetimes` acting on one stored value: only string values
are examined; strings matching the date/time pattern are replaced by the
structured datetime, everything else is left unchanged. -/
def convertValue (v : Value) : Value :=
  match v with
  | .str s =>
    match parseDatetime s with
    | some d => d
    | none => .str s
  | v => v

/-- `_convert_datetimes(flattened_obj)` (lines 74-139): every entry of the
record is examined and datetime-shaped string values are replaced in
place.  Values nested inside period mappings are not strings at the top
level of the record and are therefore not converted. -/
def convert_datetimes (r : FlatRecord) : FlatRecord :=
  r.map (fun kv => (kv.fst, convertValue kv.snd))

/-!  ## Python runtime errors surfaced by the decoders  -/

/-- Substring test (Python `in` on strings). -/
def strContains (hay needle : List Char) : Bool :=
  (List.range (hay.length + 1)).any (fun i => (hay.drop i).take needle.length = needle)

/-- Python `key in v` for a stored value: membership test on a period
mapping, substring test on a string, `TypeError` otherwise. -/
def containsKeyPy (v : Value) (k : String) : Except PyError Bool :=
  match v with
  | .period s e =>
    .ok (if k = "start" then s.isSome else if k = "end" then e.isSome else false)
  | .str s => .ok (strContains s.data k.data)
  | _ => .error .typeError

/-- Python `v[k]` for a stored value: lookup in a period mapping
(`KeyError` when the member is absent), `TypeError` on any other value
(string subscripts must be integers; numbers and datetimes are not
subscriptable). -/
def getItemPy (v : Value) (k : String) : Except PyError String :=
  match v with
  | .period s e =>
    if k = "start" then (match s with | some x => .ok x | none => .error (.keyError k))
    else if k = "end" then (match e with | some x => .ok x | none => .error (.keyError k))
    else .error (.keyError k)
  | _ => .error .typeError

/-!  ## Schema augmenters  -/

/-- Decimal rendering of a loop index, as produced by `'...{0}...'.format(i)`. -/
def fmtNat (i : Nat) : List Char := Nat.toDigits 10 i

/-- A sequence of `_set_list_length` calls (discarding the returned counts). -/
def setLens (ps : List (List Char)) (r : FlatRecord) : FlatRecord :=
  ps.foldl (fun r p => (set_list_length p r).2) r

/-- `_base_init(obj)` (lines 171-199): list lengths of the structural
fields common to every resource. -/
def base_init (r : FlatRecord) : FlatRecord :=
  let idc := set_list_length (ks "identifier") r
  let r := setLens ((List.range idc.1).map (fun i =>
    ks "identifier_" ++ fmtNat i ++ ks "_type_coding")) idc.2
  let extFields := fun (field : List Char) (i : Nat) =>
    let pre := field ++ ['_'] ++ fmtNat i ++ ['_']
    [pre ++ ks "valueCodeableConcept_coding",
     pre ++ ks "valueTiming_event",
     pre ++ ks "valueTiming_code_coding",
     pre ++ ks "valueAddress_line",
     pre ++ ks "valueHumanName_family",
     pre ++ ks "valueHumanName_given",
     pre ++ ks "valueHumanName_prefix",
     pre ++ ks "valueHumanName_suffix",
     pre ++ ks "valueSignature_type_coding",
     pre ++ ks "extension"]
  [ks "extension", ks "modifierExtension"].foldl (fun r field =>
    let c := set_list_length field r
    setLens ((List.range c.1).flatMap (extFields field)) c.2) r

/-- `_contained_med_resource_init(obj)` (lines 203-220): list lengths of an
embedded Medication sub-resource. -/
def contained_med_resource_init (r : FlatRecord) : FlatRecord :=
  let c := set_list_length (ks "contained") r
  setLens ((List.range c.1).flatMap (fun i =>
    [ks "code_coding", ks "product_form", ks "product_ingredient",
     ks "product_batch", ks "package_container_coding",
     ks "package_content"].map (fun field =>
      ks "contained_" ++ fmtNat i ++ ['_'] ++ field))) c.2

/-!  ## Resource-type decoders  -/

/-- The promotion pattern `if src in obj: obj[tgt] = obj[src]` used by the
decoders for their direct timestamp fields. -/
def promoteField (src tgt : List Char) (r : FlatRecord) : FlatRecord :=
  match rlookup r src with
  | some v => insertKV tgt v r
  | none => r

/-- The guarded period promotion of the Observation and
MedicationAdministration decoders (lines 240-246, 293-299): `start` is
promoted to `date_time` behind a membership test, but the `end` branch
assigns through the undefined name `KEY_END_DATE_TIME` (the module
constant is `_KEY_END_DATE_TIME`) and therefore raises `NameError`. -/
def promotePeriodBroken (src : List Char) (r : FlatRecord) : Except PyError FlatRecord :=
  match rlookup r src with
  | some ep => do
    let hs ← containsKeyPy ep "start"
    let r ← if hs then do
        let s ← getItemPy ep "start"
        pure (insertKV (ks "date_time") (.str s) r)
      else pure r
    let he ← containsKeyPy ep "end"
    if he then do
      let _e ← getItemPy ep "end"
      throw (.nameError "KEY_END_DATE_TIME")
    else pure r
  | none => pure r

/-- The guarded period promotion of the Procedure decoder (lines 482-489),
which promotes `start` to `date_time` and `end` to `end_date_time`, each
behind a membership test. -/
def promotePeriodGuarded (src : List Char) (r : FlatRecord) : Except PyError FlatRecord :=
  match rlookup r src with
  | some pp => do
    let hs ← containsKeyPy pp "start"
    let r ← if hs then do
        let s ← getItemPy pp "start"
        pure (insertKV (ks "date_time") (.str s) r)
      else pure r
    let he ← containsKeyPy pp "end"
    if he then do
      let e ← getItemPy pp "end"
      pure (insertKV (ks "end_date_time") (.str e) r)
    else pure r
  | none => pure r

/-- The unguarded period-member promotion of the Condition decoder
(lines 436-441): the period member is accessed without a membership
test. -/
def promotePeriodMember (src : List Char) (member : String) (tgt : List Char)
    (r : FlatRecord) : Except PyError FlatRecord :=
  match rlookup r src with
  | some pv => do
    let x ← getItemPy pv member
    pure (insertKV tgt (.str x) r)
  | none => pure r

/-- The list-shape part of the Observation decoder (lines 248-268). -/
def observation_lens (r : FlatRecord) : FlatRecord :=
  let r := base_init r
  let r := setLens [ks "category_coding", ks "code_coding", ks "performer",
    ks "valueCodeableConcept_coding", ks "dataAbsentReason_coding",
    ks "interpretation_coding", ks "bodySite_coding", ks "method_coding"] r
  let rrc := set_list_length (ks "referenceRange") r
  let r := setLens ((List.range rrc.1).map (fun i =>
    ks "referenceRange_" ++ fmtNat i ++ ks "_meaning_coding")) rrc.2
  let cc := set_list_length (ks "component") r
  setLens ((List.range cc.1).flatMap (fun i =>
    let pre := ks "component_" ++ fmtNat i ++ ['_']
    [pre ++ ks "code_coding", pre ++ ks "valueCodeableConcept_coding",
     pre ++ ks "dataAbsentReason_coding", pre ++ ks "referenceRange"])) cc.2

/-- `_decode_flattened_observation(obj)` (lines 224-273).  The
`effectivePeriod.end` branch assigns through the undefined name
`KEY_END_DATE_TIME` (line 246; the module constant is
`_KEY_END_DATE_TIME`), which raises `NameError`. -/
def decode_flattened_observation (r : FlatRecord) : Except PyError FlatRecord :=
  (promotePeriodBroken (ks "effectivePeriod")
      (promoteField (ks "effectiveDateTime") (ks "date_time") r)).bind
    (fun r => .ok (observation_lens r))

/-- The list-shape part of the MedicationAdministration decoder
(lines 301-316).  The two reason loops pass the uninterpolated template
prefix on every iteration. -/
def medication_administration_lens (r : FlatRecord) : FlatRecord :=
  let r := base_init r
  let r := contained_med_resource_init r
  let rng := set_list_length (ks "reasonNotGiven") r
  let r := setLens ((List.range rng.1).map (fun _ =>
    ks "reasonNotGiven_\x7b0\x7d_coding")) rng.2
  let rg := set_list_length (ks "reasonGiven") r
  let r := setLens ((List.range rg.1).map (fun _ =>
    ks "reasonGiven_\x7b0\x7d_coding")) rg.2
  setLens [ks "medicationCodeableConcept_coding", ks "device",
    ks "dosage_siteCodeableConcept_coding", ks "dosage_route_coding",
    ks "dosage_method_coding"] r

/-- `_decode_flattened_medication_administration(obj)` (lines 277-321).
The `effectiveTimePeriod.end` branch has the same undefined-name bug as
the Observation decoder (line 299), and the two reason-coding loops pass
the loop key without `.format(i)`, so the uninterpolated template string
is used as the prefix on every iteration (lines 306, 310). -/
def decode_flattened_medication_administration (r : FlatRecord) :
    Except PyError FlatRecord :=
  (promotePeriodBroken (ks "effectiveTimePeriod")
      (promoteField (ks "effectiveTimeDateTime") (ks "date_time") r)).bind
    (fun r => .ok (medication_administration_lens r))

/-- The list-shape part of the MedicationOrder decoder (lines 346-363). -/
def medication_order_lens (r : FlatRecord) : FlatRecord :=
  let r := base_init r
  let r := contained_med_resource_init r
  let r := setLens [ks "reasonEnded_coding", ks "reasonCodeableConcept_coding",
    ks "medicationCodeableConcept_coding"] r
  let ic := set_list_length (ks "dosageInstruction") r
  let r := setLens ((List.range ic.1).flatMap (fun i =>
    let pre := ks "dosageInstruction_" ++ fmtNat i ++ ['_']
    [pre ++ ks "additionalInstructions_coding", pre ++ ks "timing_code_coding",
     pre ++ ks "asNeededCodeableConcept_coding", pre ++ ks "siteCodeableConcept_coding",
     pre ++ ks "route_coding", pre ++ ks "method_coding"])) ic.2
  setLens [ks "dispenseRequest_medicationCodeableConcept_coding",
    ks "substitution_type_coding", ks "substitution_reason_coding"] r

/-- `_decode_flattened_medication_order(obj)` (lines 325-368). -/
def decode_flattened_medication_order (r : FlatRecord) : Except PyError FlatRecord := do
  let r := promoteField (ks "dateWritten") (ks "date_time") r
  let r := promoteField (ks "dateEnded") (ks "end_date_time") r
  pure (medication_order_lens r)

/-- The list-shape part of the MedicationStatement decoder (lines 388-404).
The reason loop passes the uninterpolated template prefix. -/
def medication_statement_lens (r : FlatRecord) : FlatRecord :=
  let r := base_init r
  let r := contained_med_resource_init r
  let rc := set_list_length (ks "reasonNotTaken") r
  let r := setLens ((List.range rc.1).map (fun _ => ks "reason_\x7b0\x7d_coding")) rc.2
  let r := setLens [ks "reasonForUseCodeableConcept_coding", ks "supportingInformation",
    ks "medicationCodeableConcept_coding"] r
  let dcnt := set_list_length (ks "dosage") r
  setLens ((List.range dcnt.1).flatMap (fun i =>
    let pre := ks "dosage_" ++ fmtNat i ++ ['_']
    [pre ++ ks "asNeededCodeableConcept_coding", pre ++ ks "siteCodeableConcept_coding",
     pre ++ ks "route_coding", pre ++ ks "method_coding"])) dcnt.2

/-- `_decode_flattened_medication_statement(obj)` (lines 372-409).  The
reason-coding loop passes the uninterpolated template `reason_\x7b0\x7d_coding`
(line 393). -/
def decode_flattened_medication_statement (r : FlatRecord) : Except PyError FlatRecord := do
  let r := promoteField (ks "dateAsserted") (ks "date_time") r
  pure (medication_statement_lens r)

/-- The list-shape part of the Condition decoder (lines 443-456). -/
def condition_lens (r : FlatRecord) : FlatRecord :=
  let r := base_init r
  let r := setLens [ks "code_coding", ks "category_coding", ks "severity_coding",
    ks "stage_assessment"] r
  let ec := set_list_length (ks "evidence") r
  let r := setLens ((List.range ec.1).flatMap (fun i =>
    let pre := ks "evidence_" ++ fmtNat i ++ ['_']
    [pre ++ ks "code_coding", pre ++ ks "detail"])) ec.2
  let sc := set_list_length (ks "bodySite") r
  setLens ((List.range sc.1).map (fun i =>
    ks "bodySite_" ++ fmtNat i ++ ks "_coding")) sc.2

/-- `_decode_flattened_condition(obj)` (lines 413-461).  The
`onsetPeriod.start` and `abatementPeriod.end` accesses are unguarded
(lines 437, 440), unlike the membership-tested accesses of the
Observation and Procedure decoders. -/
def decode_flattened_condition (r : FlatRecord) : Except PyError FlatRecord :=
  (promotePeriodMember (ks "onsetPeriod") "start" (ks "date_time")
      (promoteField (ks "abatementDateTime") (ks "end_date_time")
        (promoteField (ks "onsetDateTime") (ks "date_time") r))).bind
    (fun r => (promotePeriodMember (ks "abatementPeriod") "end" (ks "end_date_time") r).bind
      (fun r => .ok (condition_lens r)))

/-- The list-shape part of the Procedure decoder (lines 491-521). -/
def procedure_lens (r : FlatRecord) : FlatRecord :=
  let r := base_init r
  let r := contained_med_resource_init r
  let r := setLens [ks "category_coding", ks "code_coding",
    ks "reasonNotPerformed_coding"] r
  let sc := set_list_length (ks "bodySite") r
  let r := setLens ((List.range sc.1).map (fun i =>
    ks "bodySite_" ++ fmtNat i ++ ks "_coding")) sc.2
  let r := setLens [ks "reasonCodeableConcept_coding"] r
  let pc := set_list_length (ks "performer") r
  let r := setLens ((List.range pc.1).map (fun i =>
    ks "performer_" ++ fmtNat i ++ ks "_role_coding")) pc.2
  let r := setLens [ks "outcome_coding", ks "report"] r
  let cc := set_list_length (ks "complication") r
  let r := setLens ((List.range cc.1).map (fun i =>
    ks "complication_" ++ fmtNat i ++ ks "_coding")) cc.2
  let fc := set_list_length (ks "followUp") r
  let r := setLens ((List.range fc.1).map (fun i =>
    ks "followUp_" ++ fmtNat i ++ ks "_coding")) fc.2
  let r := setLens [ks "notes"] r
  let dc := set_list_length (ks "focalDevice") r
  let r := setLens ((List.range dc.1).map (fun i =>
    ks "focalDevice_" ++ fmtNat i ++ ks "_action_coding")) dc.2
  setLens [ks "used"] r

/-- `_decode_flattened_procedure(obj)` (lines 465-526). -/
def decode_flattened_procedure (r : FlatRecord) : Except PyError FlatRecord :=
  (promotePeriodGuarded (ks "performedPeriod")
      (promoteField (ks "performedDateTime") (ks "date_time") r)).bind
    (fun r => .ok (procedure_lens r))

/-!  ## Patient decoding and dispatch  -/

/-- Modelled from the spec: the flattening collaborator (§6) maps a nested
record to its flattened mapping.  The embedding represents every raw
resource directly by its flattened image, under which the transform is
the identity. -/
def flatten (r : FlatRecord) : FlatRecord := r

/-- Modelled from the spec: the outcome of `json.loads` on a textual
payload — either the parsed structure or a parse failure carrying the
error message. -/
inductive JsonOutcome (α : Type) : Type where
  | ok (v : α)
  | fail (msg : String)
deriving DecidableEq, Repr

/-- Input to `_decode_flattened_patient`: already a mapping, or a textual
payload together with its parse outcome. -/
inductive PatientInput : Type where
  | fromDict (r : FlatRecord)
  | fromString (p : JsonOutcome FlatRecord)

/-- The list-shape part of the Patient decoder (lines 557-595). -/
def patient_lens (f : FlatRecord) : FlatRecord :=
  let f := base_init f
  let nc := set_list_length (ks "name") f
  let f := (List.range nc.1).foldl (fun f i =>
    [ks "family", ks "given", ks "prefix", ks "suffix"].foldl (fun f fld =>
      let key_name := ks "name_" ++ fmtNat i ++ ['_'] ++ fld
      let c := set_list_length key_name f
      setLens ((List.range c.1).map (fun j => key_name ++ ['_'] ++ fmtNat j)) c.2) f) nc.2
  let f := setLens [ks "telecom"] f
  let ac := set_list_length (ks "address") f
  let f := setLens ((List.range ac.1).map (fun i =>
    ks "address_" ++ fmtNat i ++ ks "_line")) ac.2
  let f := setLens [ks "maritalStatus_coding"] f
  let cc := set_list_length (ks "contact") f
  let f := (List.range cc.1).foldl (fun f i =>
    [ks "relationship", ks "telecom"].foldl (fun f fld =>
      let key_name := ks "contact_" ++ fmtNat i ++ ['_'] ++ fld
      let c := set_list_length key_name f
      setLens ((List.range c.1).map (fun j =>
        key_name ++ ['_'] ++ fmtNat j ++ ks "_coding")) c.2) f) cc.2
  let f := setLens [ks "animal_species_coding", ks "animal_breed_coding",
    ks "animal_genderStatus_coding"] f
  let mc := set_list_length (ks "communication") f
  let f := setLens ((List.range mc.1).map (fun i =>
    ks "communication_" ++ fmtNat i ++ ks "_language_coding")) mc.2
  setLens [ks "careProvider", ks "link"] f

/-- `_decode_flattened_patient(obj)` (lines 530-600).  On an unparsable
string payload, the handler for the raised `JSONDecodeError` names
`json.decoder.JSONDecoderError`, an attribute that does not exist, so the
lookup performed while matching the exception raises `AttributeError`
(lines 539-544; the handler body would also return the undefined name
`result`). -/
def decode_flattened_patient (input : PatientInput) : Except PyError FlatRecord := do
  let obj ← match input with
    | .fromDict r => pure r
    | .fromString (.ok r) => pure r
    | .fromString (.fail _) => throw (.attributeError "JSONDecoderError")
  pure (patient_lens (convert_datetimes (flatten obj)))

/-- `_process_resource(obj)` (lines 834-865): flatten, normalize
datetimes, read the resource-type discriminator and route to the matching
decoder; `none` when the discriminator is absent or unrecognized. -/
def process_resource (r : FlatRecord) : Except PyError (Option FlatRecord) :=
  if (rlookup (convert_datetimes (flatten r)) (ks "resourceType")).isSome then
    match rlookup r (ks "resourceType") with
    | none => .error (.keyError "resourceType")
    | some (Value.str s) =>
      if s = "Patient" then
        (decode_flattened_patient (.fromDict (convert_datetimes (flatten r)))).map some
      else if s = "Observation" then
        (decode_flattened_observation (convert_datetimes (flatten r))).map some
      else if s = "Procedure" then
        (decode_flattened_procedure (convert_datetimes (flatten r))).map some
      else if s = "Condition" then
        (decode_flattened_condition (convert_datetimes (flatten r))).map some
      else if s = "MedicationStatement" then
        (decode_flattened_medication_statement (convert_datetimes (flatten r))).map some
      else if s = "MedicationOrder" then
        (decode_flattened_medication_order (convert_datetimes (flatten r))).map some
      else if s = "MedicationAdministration" then
        (decode_flattened_medication_administration (convert_datetimes (flatten r))).map some
      else .ok none
    | some _ => .ok none
  else .ok none

/-- The accumulation loop of `_decode_bundle` (lines 891-895): decode each
element in order, appending the non-`None` results. -/
def processList (objs : List FlatRecord) : Except PyError (List FlatRecord) :=
  match objs with
  | [] => pure []
  | o :: rest => do
    let res ← process_resource o
    let tail ← processList rest
    match res with
    | some x => pure (x :: tail)
    | none => pure tail

/-- `_decode_bundle(name, bundle_obj)` (lines 869-897): an unparsable
payload is reported and yields `[]`; a parsed payload is an ordered list
of raw records, each decoded via `_process_resource`, keeping the
non-`None` results in input order. -/
def decode_bundle (payload : JsonOutcome (List FlatRecord)) :
    Except PyError (List FlatRecord) :=
  match payload with
  | .fail _ => pure []
  | .ok objs => processList objs

/-!  # Verification

Supporting lemmas about the embedding, followed by one theorem per
specification claim. -/

/-- The implementation-side match (`matchNum`) succeeds exactly on the keys
described by the spec-side pattern reading (`specMatches`). -/
lemma specMatches_iff (p k : List Char) : specMatches p k ↔ matchNum p k ≠ none := by
  constructor
  · rintro ⟨ds, rest, hne, hall, rfl⟩
    unfold matchNum
    have hlen : (p ++ ['_']).length = p.length + 1 := by simp
    have hassoc : p ++ ['_'] ++ ds ++ rest = (p ++ ['_']) ++ (ds ++ rest) := by
      simp [List.append_assoc]
    rw [hassoc, ← hlen, List.take_left, List.drop_left]
    simp only [if_pos rfl]
    obtain ⟨d, ds', rfl⟩ := List.exists_cons_of_ne_nil hne
    have hd : d.isDigit := by
      have := List.all_eq_true.mp hall d (List.mem_cons_self d ds')
      simpa using this
    simp [List.takeWhile_cons, hd]
  · intro h
    unfold matchNum at h
    by_cases htake : k.take (p.length + 1) = p ++ ['_']
    · rw [if_pos htake] at h
      by_cases hemp : ((k.drop (p.length + 1)).takeWhile Char.isDigit).isEmpty = true
      · simp only [hemp, if_pos] at h
        exact absurd rfl h
      · refine ⟨(k.drop (p.length + 1)).takeWhile Char.isDigit,
               (k.drop (p.length + 1)).dropWhile Char.isDigit, ?_, ?_, ?_⟩
        · intro hnil
          rw [hnil] at hemp
          exact hemp rfl
        · exact List.all_eq_true.mpr fun c hc => List.mem_takeWhile_imp hc
        · have hsplit : (k.drop (p.length + 1)).takeWhile Char.isDigit ++
              (k.drop (p.length + 1)).dropWhile Char.isDigit = k.drop (p.length + 1) :=
            List.takeWhile_append_dropWhile Char.isDigit (k.drop (p.length + 1))
          conv_lhs => rw [← List.take_append_drop (p.length + 1) k]
          rw [htake, ← hsplit]
          simp [List.append_assoc]
    · rw [if_neg htake] at h
      exact absurd rfl h

instance (p k : List Char) : Decidable (specMatches p k) :=
  decidable_of_iff _ (specMatches_iff p k).symm

/-- The left fold of `max` bounds its seed and every list element. -/
lemma foldl_max_bounds (ns : List Nat) (s : Nat) :
    s ≤ ns.foldl max s ∧ ∀ n ∈ ns, n ≤ ns.foldl max s := by
  induction ns generalizing s with
  | nil => simp
  | cons a l ih =>
    simp only [List.foldl_cons]
    refine ⟨le_trans (le_max_left s a) (ih (max s a)).1, ?_⟩
    intro n hn
    rcases List.mem_cons.mp hn with rfl | hn
    · exact le_trans (le_max_right s n) (ih (max s n)).1
    · exact (ih (max s a)).2 n hn

/-- The left fold of `max` is the seed or one of the elements. -/
lemma foldl_max_eq_init_or_mem (ns : List Nat) (s : Nat) :
    ns.foldl max s = s ∨ ns.foldl max s ∈ ns := by
  induction ns generalizing s with
  | nil => left; rfl
  | cons a l ih =>
    simp only [List.foldl_cons]
    rcases ih (max s a) with h | h
    · rcases max_choice s a with hm | hm
      · left; rw [h, hm]
      · right; rw [h, hm]; exact List.mem_cons_self a l
    · right; exact List.mem_cons_of_mem a h

/-- A nonempty `max` fold from seed 0 lands on a list element. -/
lemma foldl_max_mem (ns : List Nat) (hne : ns ≠ []) : ns.foldl max 0 ∈ ns := by
  rcases foldl_max_eq_init_or_mem ns 0 with h0 | hm
  · cases ns with
    | nil => exact absurd rfl hne
    | cons a l =>
      have ha := (foldl_max_bounds (a :: l) 0).2 a (List.mem_cons_self a l)
      rw [h0] at ha ⊢
      have : a = 0 := Nat.le_zero.mp ha
      rw [← this]
      exact List.mem_cons_self a l
  · exact hm

/-- A `some` result of the running-maximum scan is attained by a matching
key and bounds every matching key. -/
lemma maxNum_isGreatest (p : List Char) (r : FlatRecord) (m : Nat)
    (h : maxNum p r = some m) : m ∈ nums p r ∧ ∀ n ∈ nums p r, n ≤ m := by
  unfold maxNum at h
  cases hn : nums p r with
  | nil => rw [hn] at h; exact Option.noConfusion h
  | cons a l =>
    rw [hn] at h
    have hm : (a :: l).foldl max 0 = m := Option.some.inj h
    rw [← hm]
    exact ⟨foldl_max_mem (a :: l) (by simp), (foldl_max_bounds (a :: l) 0).2⟩

/-- Membership in the collected indices. -/
lemma mem_nums_iff (p : List Char) (r : FlatRecord) (n : Nat) :
    n ∈ nums p r ↔ ∃ kv ∈ r, matchNum p kv.fst = some n := by
  unfold nums
  exact List.mem_filterMap

/-- The scan finds no index exactly when no key matches the spec-side
pattern. -/
lemma maxNum_eq_none_iff (p : List Char) (r : FlatRecord) :
    maxNum p r = none ↔ ∀ kv ∈ r, ¬ specMatches p kv.fst := by
  unfold maxNum
  constructor
  · intro h kv hkv hspec
    have hm := (specMatches_iff p kv.fst).mp hspec
    cases hmn : matchNum p kv.fst with
    | none => exact hm hmn
    | some n =>
      have : n ∈ nums p r := (mem_nums_iff p r n).mpr ⟨kv, hkv, hmn⟩
      cases hns : nums p r with
      | nil => rw [hns] at this; cases this
      | cons a l => rw [hns] at h; cases h
  · intro h
    cases hns : nums p r with
    | nil => rfl
    | cons a l =>
      exfalso
      have : a ∈ nums p r := by rw [hns]; exact List.mem_cons_self a l
      obtain ⟨kv, hkv, hm⟩ := (mem_nums_iff p r a).mp this
      exact h kv hkv ((specMatches_iff p kv.fst).mpr (by rw [hm]; exact Option.some_ne_none a))

/-- A regex-literal prefix contains no `|`. -/
lemma bar_not_mem {p : List Char} (hp : regexLiteral p = true) : '|' ∉ p := by
  intro hmem
  have h := List.all_eq_true.mp hp _ hmem
  have hord : regexOrdinary '|' = false := by decide
  rw [hord] at h
  exact Bool.noConfusion h

/-- A regex-literal prefix contains no `.`. -/
lemma dot_not_mem {p : List Char} (hp : regexLiteral p = true) : '.' ∉ p := by
  intro hmem
  have h := List.all_eq_true.mp hp _ hmem
  have hord : regexOrdinary '.' = false := by decide
  rw [hord] at h
  exact Bool.noConfusion h

/-- A `|`-free prefix compiles to a single alternative. -/
lemma splitAlts_no_bar (p : List Char) (h : '|' ∉ p) : splitAlts p = [p] := by
  induction p with
  | nil => rfl
  | cons c cs ih =>
    have hc : ¬ (c = '|') := fun he => h (he ▸ List.mem_cons_self c cs)
    have hcs : '|' ∉ cs := fun hm => h (List.mem_cons_of_mem c hm)
    unfold splitAlts
    rw [if_neg hc, ih hcs]

/-- On a `.`-free segment the compiled atoms match exactly the literal
string. -/
lemma atomsMatchPrefix_lit (p : List Char) (hdot : '.' ∉ p) (k : List Char) :
    atomsMatchPrefix (toAtoms p) k
      = if k.take p.length = p then some (k.drop p.length) else none := by
  induction p generalizing k with
  | nil => simp [toAtoms, atomsMatchPrefix]
  | cons c p' ih =>
    have hc : ¬ (c = '.') := fun he => hdot (he ▸ List.mem_cons_self c p')
    have hd' : '.' ∉ p' := fun hm => hdot (List.mem_cons_of_mem c hm)
    have hhead : toAtoms (c :: p') = ReAtom.lit c :: toAtoms p' := by
      simp [toAtoms, hc]
    cases k with
    | nil => simp [hhead, atomsMatchPrefix, hc]
    | cons x k' =>
      rw [hhead]
      by_cases hcx : c = x
      · subst hcx
        by_cases htk : k'.take p'.length = p'
        · simp [atomsMatchPrefix, atomMatches, ih hd' k', htk,
            List.take_succ_cons, List.drop_succ_cons]
        · simp [atomsMatchPrefix, atomMatches, ih hd' k', htk,
            List.take_succ_cons]
      · have hxc : ¬ (x = c) := fun he => hcx he.symm
        simp [atomsMatchPrefix, atomMatches, hcx, hxc, List.take_succ_cons]

/-- On a regex-literal prefix the compiled-pattern match coincides with
the literal match. -/
lemma reMatchNum_literal (p k : List Char) (hp : regexLiteral p = true) :
    reMatchNum p k = .ok (matchNum p k) := by
  unfold reMatchNum
  rw [splitAlts_no_bar p (bar_not_mem hp)]
  show reMatchAlts [p] k = .ok (matchNum p k)
  unfold reMatchAlts
  rw [atomsMatchPrefix_lit p (dot_not_mem hp) k]
  by_cases htake : k.take p.length = p
  · rw [if_pos htake]
    have hk : k = p ++ k.drop p.length := by
      conv_lhs => rw [← List.take_append_drop p.length k]
      rw [htake]
    cases hrest : k.drop p.length with
    | nil =>
      have hkp : k = p := by rw [hk, hrest, List.append_nil]
      unfold matchNum
      have hne : k.take (p.length + 1) ≠ p ++ ['_'] := by
        intro he
        have hlen := congrArg List.length he
        rw [hkp] at hlen
        simp [List.length_take] at hlen
      rw [if_neg hne]
    | cons c rest2 =>
      by_cases hcu : c = '_'
      · subst hcu
        unfold matchNum
        have htake1 : k.take (p.length + 1) = p ++ ['_'] := by
          conv_lhs => rw [hk, hrest]
          rw [List.take_append 1]
          rfl
        have hdrop1 : k.drop (p.length + 1) = rest2 := by
          conv_lhs => rw [hk, hrest]
          rw [List.drop_append 1]
          rfl
        rw [if_pos htake1, hdrop1]
        show (if (rest2.takeWhile Char.isDigit).isEmpty = true
              then (Except.ok none : Except PyError (Option Nat))
              else Except.ok (some (digitsVal (rest2.takeWhile Char.isDigit))))
            = Except.ok (if (rest2.takeWhile Char.isDigit).isEmpty = true then none
              else some (digitsVal (rest2.takeWhile Char.isDigit)))
        by_cases hds : (rest2.takeWhile Char.isDigit).isEmpty = true
        · rw [if_pos hds, if_pos hds]
        · rw [if_neg hds, if_neg hds]
      · unfold matchNum
        have hne : k.take (p.length + 1) ≠ p ++ ['_'] := by
          intro he
          rw [hk, hrest, List.take_append 1] at he
          have := List.append_inj_right he rfl
          simp at this
          exact hcu this
        rw [if_neg hne]
        simp [hcu]
  · rw [if_neg htake]
    unfold matchNum
    have hne : k.take (p.length + 1) ≠ p ++ ['_'] := by
      intro he
      apply htake
      have h1 := congrArg (List.take p.length) he
      rw [List.take_take] at h1
      have h2 : min p.length (p.length + 1) = p.length := by omega
      rw [h2] at h1
      rw [h1]
      have h3 : (p ++ ['_']).take p.length = (p ++ ['_']).take (p.length + 0) := rfl
      rw [h3, List.take_append 0]
      simp
    rw [if_neg hne]

/-- On a regex-literal prefix the compiled-pattern scan collects the
literal indices. -/
lemma numsRe_literal (p : List Char) (r : FlatRecord) (hp : regexLiteral p = true) :
    numsRe p r = .ok (nums p r) := by
  induction r with
  | nil => rfl
  | cons kv rest ih =>
    unfold numsRe
    rw [reMatchNum_literal _ _ hp, ih]
    unfold nums
    rw [List.filterMap_cons]
    cases matchNum p kv.fst with
    | none => rfl
    | some n => rfl

/-- On a regex-literal prefix, list-length inference under the
compiled-pattern reading succeeds and coincides with the literal
reading. -/
lemma set_list_length_re_literal (p : List Char) (r : FlatRecord)
    (hp : regexLiteral p = true) :
    set_list_length_re p r = .ok (set_list_length p r) := by
  unfold set_list_length_re maxNumRe set_list_length maxNum
  rw [numsRe_literal p r hp]
  cases nums p r with
  | nil => rfl
  | cons n ns => rfl

/-- C4 counterexample: the claim quantifies over every prefix string, but
the source splices the prefix into a regex.  At prefix `a|b` with mapping
`\x7b'a': 'x'\x7d` no key matches `a|b_<digits>` (no literal index is collected),
yet the program neither returns 0 nor leaves the mapping unchanged: the
key `a` matches the bare alternative `\Aa` of the compiled pattern and
`int(match.group('num'))` raises `TypeError`.  At prefix `a.` with mapping
`\x7b'ax_0': 'x'\x7d` again no key matches `a._<digits>`, yet the wildcard reading
matches `ax_0`, so the program returns 1 and writes `len_a.`. -/
theorem claim_C4_counterexample :
    (nums (ks "a|b") [(ks "a", Value.str "x")] = []
      ∧ set_list_length_re (ks "a|b") [(ks "a", Value.str "x")] = .error .typeError)
    ∧ (nums (ks "a.") [(ks "ax_0", Value.str "x")] = []
      ∧ set_list_length_re (ks "a.") [(ks "ax_0", Value.str "x")]
          = .ok (1, [(ks "ax_0", Value.str "x"), (ks "len_a.", Value.num 1)])) := by
  exact ⟨⟨rfl, rfl⟩, ⟨rfl, rfl⟩⟩

/-- C4 (amended): for every mapping with ASCII keys and every ASCII prefix
free of regex metacharacters — on that domain the spliced pattern matches
exactly literally, as `set_list_length_re_literal` and the first conjunct
show, and every prefix the decoders pass is of this form — list-length
inference returns 0 and leaves the mapping completely unchanged when no
key of the mapping matches `prefix_<digits>` (optionally followed by
`_`); otherwise it writes the entry `len_<prefix>` with value
`max_index + 1` (`max_index` being the largest integer index among the
matching keys) and returns that count. -/
theorem claim_C4 (r : FlatRecord) (p : List Char)
    (hp : regexLiteral p = true)
    (hk : r.all (fun kv => asciiKey kv.fst) = true) :
    set_list_length_re p r = .ok (set_list_length p r)
  ∧ ((∀ kv ∈ r, ¬ specMatches p kv.fst) → set_list_length p r = (0, r))
  ∧ ((∃ kv ∈ r, specMatches p kv.fst) →
      ∃ m, (∃ kv ∈ r, matchNum p kv.fst = some m)
        ∧ (∀ kv ∈ r, ∀ n, matchNum p kv.fst = some n → n ≤ m)
        ∧ set_list_length p r = (m + 1, insertKV (lenKey p) (.num (m + 1)) r)) := by
  refine ⟨set_list_length_re_literal p r hp, ?_, ?_⟩
  · intro h
    have hnone : maxNum p r = none := (maxNum_eq_none_iff p r).mpr h
    unfold set_list_length
    rw [hnone]
  · rintro ⟨kv, hkv, hspec⟩
    cases hmax : maxNum p r with
    | none =>
      exact absurd hspec ((maxNum_eq_none_iff p r).mp hmax kv hkv)
    | some m =>
      have hg := maxNum_isGreatest p r m hmax
      refine ⟨m, (mem_nums_iff p r m).mp hg.1, ?_, ?_⟩
      · intro kv' hkv' n hn
        exact hg.2 n ((mem_nums_iff p r n).mpr ⟨kv', hkv', hn⟩)
      · unfold set_list_length
        rw [hmax]

/-- Witness for C4 at two concrete inputs with the metacharacter-free
ASCII prefix `item`: a mapping with no matching key, and one whose
matching keys `item_2_x`, `item_10` have greatest index 10. -/
theorem claim_C4_witness :
    set_list_length_re (ks "item") [(ks "other", Value.str "x")]
      = .ok (set_list_length (ks "item") [(ks "other", Value.str "x")])
    ∧ set_list_length (ks "item") [(ks "other", Value.str "x")] = (0, [(ks "other", Value.str "x")])
    ∧ ∃ m, (∃ kv ∈ ([(ks "item_2_x", Value.str "x"), (ks "item_10", Value.str "y")] : FlatRecord),
            matchNum (ks "item") kv.fst = some m)
        ∧ (∀ kv ∈ ([(ks "item_2_x", Value.str "x"), (ks "item_10", Value.str "y")] : FlatRecord),
            ∀ n, matchNum (ks "item") kv.fst = some n → n ≤ m)
        ∧ set_list_length (ks "item") [(ks "item_2_x", Value.str "x"), (ks "item_10", Value.str "y")]
            = (m + 1, insertKV (lenKey (ks "item")) (Value.num (m + 1))
                [(ks "item_2_x", Value.str "x"), (ks "item_10", Value.str "y")]) := by
  have h1 := claim_C4 [(ks "other", Value.str "x")] (ks "item") (by decide) (by decide)
  have h2 := claim_C4 [(ks "item_2_x", Value.str "x"), (ks "item_10", Value.str "y")]
    (ks "item") (by decide) (by decide)
  exact ⟨h1.1, h1.2.1 (by decide), h2.2.2 (by decide)⟩

/-- The derived key `len_<prefix>` never matches the pattern for
`<prefix>`: the pattern requires a digit among the characters added to the
right of the prefix, but `len_` contributes none. -/
lemma matchNum_lenKey (p : List Char) : matchNum p (lenKey p) = none := by
  by_contra h
  have hspec : specMatches p (lenKey p) := (specMatches_iff p (lenKey p)).mpr h
  obtain ⟨ds, rest, hne, hall, heq⟩ := hspec
  obtain ⟨d, ds', rfl⟩ := List.exists_cons_of_ne_nil hne
  have hd : d.isDigit = true := by
    simpa using List.all_eq_true.mp hall d (List.mem_cons_self d ds')
  have hcount := congrArg (List.countP Char.isDigit) heq
  rw [lenKey] at hcount
  have h0 : (ks "len_").countP Char.isDigit = 0 := by decide
  have hund : '_'.isDigit = false := by decide
  simp only [List.countP_append, List.countP_cons, List.countP_nil, hd, hund] at hcount
  rw [h0] at hcount
  simp at hcount
  omega

/-- Inserting the derived length entry changes no captured index. -/
lemma nums_insert_lenKey (p : List Char) (v : Value) (r : FlatRecord) :
    nums p (insertKV (lenKey p) v r) = nums p r := by
  unfold insertKV
  by_cases hany : r.any (fun kv => kv.fst = lenKey p)
  · rw [if_pos hany]
    unfold nums
    rw [List.filterMap_map]
    have hfun : ((fun kv : List Char × Value => matchNum p kv.fst) ∘
        (fun kv : List Char × Value => if kv.fst = lenKey p then (lenKey p, v) else kv))
        = fun kv : List Char × Value => matchNum p kv.fst := by
      funext kv
      by_cases hk : kv.fst = lenKey p
      · simp [Function.comp, hk]
      · simp [Function.comp, hk]
    rw [hfun]
  · rw [if_neg hany]
    unfold nums
    rw [List.filterMap_append]
    simp [matchNum_lenKey]

/-- The running maximum is unchanged by inserting the derived length
entry. -/
lemma maxNum_insert_lenKey (p : List Char) (v : Value) (r : FlatRecord) :
    maxNum p (insertKV (lenKey p) v r) = maxNum p r := by
  unfold maxNum
  rw [nums_insert_lenKey]

/-- Dict assignment of the same key/value twice equals assigning it
once. -/
lemma insertKV_idem (k : List Char) (v : Value) (r : FlatRecord) :
    insertKV k v (insertKV k v r) = insertKV k v r := by
  unfold insertKV
  by_cases hany : r.any (fun kv => kv.fst = k)
  · rw [if_pos hany]
    have hany2 : (r.map (fun kv => if kv.fst = k then (k, v) else kv)).any
        (fun kv => kv.fst = k) = true := by
      obtain ⟨kv, hkv, hk⟩ := List.any_eq_true.mp hany
      apply List.any_eq_true.mpr
      refine ⟨if kv.fst = k then (k, v) else kv, List.mem_map_of_mem _ hkv, ?_⟩
      have hk' : kv.fst = k := by simpa using hk
      simp [hk']
    rw [if_pos hany2, List.map_map]
    have hgg : ((fun kv : List Char × Value => if kv.fst = k then (k, v) else kv) ∘
        (fun kv : List Char × Value => if kv.fst = k then (k, v) else kv))
        = fun kv : List Char × Value => if kv.fst = k then (k, v) else kv := by
      funext kv
      by_cases h : kv.fst = k
      · simp [Function.comp, h]
      · simp [Function.comp, h]
    rw [hgg]
  · rw [if_neg hany]
    have hany2 : ((r ++ [(k, v)]).any (fun kv => kv.fst = k)) = true := by
      apply List.any_eq_true.mpr
      exact ⟨(k, v), by simp, by simp⟩
    rw [if_pos hany2, List.map_append]
    have hnone : ∀ kv ∈ r, ¬ (kv.fst = k) := by
      intro kv hkv hk
      exact hany (List.any_eq_true.mpr ⟨kv, hkv, by simpa using hk⟩)
    have h1 : r.map (fun kv => if kv.fst = k then (k, v) else kv) = r := by
      conv_rhs => rw [← List.map_id r]
      apply List.map_congr_left
      intro kv hkv
      simp [hnone kv hkv]
    have h2 : [(k, v)].map (fun kv => if kv.fst = k then (k, v) else kv) = [(k, v)] := by
      simp
    rw [h1, h2]

/-- Idempotence of the literal-reading inference: the derived key
`len_<prefix>` never matches the prefix pattern (it adds no digit), so the
second run sees the same index set and rewrites the same entry. -/
lemma set_list_length_idem (r : FlatRecord) (p : List Char) :
    set_list_length p (set_list_length p r).2 = set_list_length p r := by
  cases hmax : maxNum p r with
  | none =>
    have h1 : set_list_length p r = (0, r) := by
      unfold set_list_length
      rw [hmax]
    rw [h1]
    exact h1
  | some m =>
    have h1 : set_list_length p r = (m + 1, insertKV (lenKey p) (.num (m + 1)) r) := by
      unfold set_list_length
      rw [hmax]
    rw [h1]
    show set_list_length p (insertKV (lenKey p) (.num (m + 1)) r)
        = (m + 1, insertKV (lenKey p) (.num (m + 1)) r)
    have h2 : maxNum p (insertKV (lenKey p) (.num (m + 1)) r) = some m := by
      rw [maxNum_insert_lenKey, hmax]
    unfold set_list_length
    rw [h2]
    show (m + 1, insertKV (lenKey p) (Value.num (m + 1)) (insertKV (lenKey p) (Value.num (m + 1)) r))
        = (m + 1, insertKV (lenKey p) (Value.num (m + 1)) r)
    rw [insertKV_idem]

/-- C8 counterexample: the claim quantifies over every prefix, but at the
prefix `len|q` with mapping `\x7b'q_3': 'x'\x7d` the first run returns count 4
and writes `len_len|q`, and the second run raises `TypeError`: the derived
key `len_len|q` matches the bare alternative `\Alen` of the spliced
pattern, whose match carries no `num` group, so the source executes
`int(None)`.  The second run neither returns the same count nor yields the
same mapping — it does not return at all. -/
theorem claim_C8_counterexample :
    set_list_length_re (ks "len|q") [(ks "q_3", Value.str "x")]
      = .ok (4, [(ks "q_3", Value.str "x"), (ks "len_len|q", Value.num 4)])
    ∧ set_list_length_re (ks "len|q")
        [(ks "q_3", Value.str "x"), (ks "len_len|q", Value.num 4)]
      = .error .typeError := by
  exact ⟨rfl, rfl⟩

/-- C8 (amended): for every mapping with ASCII keys and every ASCII prefix
free of regex metacharacters (the domain on which the spliced pattern
matches literally; every prefix the decoders pass is of this form), the
first run of list-length inference succeeds with the literal result, and
running it a second time on the mapping produced by the first run returns
the same count and yields the same final mapping — in particular the
derived `len_<prefix>` entry added by the first run does not change the
inferred value. -/
theorem claim_C8 (r : FlatRecord) (p : List Char)
    (hp : regexLiteral p = true)
    (hk : r.all (fun kv => asciiKey kv.fst) = true) :
    set_list_length_re p r = .ok (set_list_length p r)
    ∧ set_list_length_re p (set_list_length p r).2 = .ok (set_list_length p r) := by
  refine ⟨set_list_length_re_literal p r hp, ?_⟩
  rw [set_list_length_re_literal _ _ hp, set_list_length_idem]

/-- Witness for C8 at the metacharacter-free ASCII prefix `item` and a
mapping with one matching key. -/
theorem claim_C8_witness :
    set_list_length_re (ks "item") [(ks "item_2", Value.str "x")]
      = .ok (set_list_length (ks "item") [(ks "item_2", Value.str "x")])
    ∧ set_list_length_re (ks "item")
        (set_list_length (ks "item") [(ks "item_2", Value.str "x")]).2
      = .ok (set_list_length (ks "item") [(ks "item_2", Value.str "x")]) :=
  claim_C8 [(ks "item_2", Value.str "x")] (ks "item") (by decide) (by decide)

/-!  ## Lookup preservation lemmas  -/

/-- Replacing the value of key `k` does not affect lookups of other keys. -/
lemma rlookup_map_replace_ne (k k' : List Char) (v : Value) (r : FlatRecord)
    (h : k' ≠ k) :
    rlookup (r.map (fun kv => if kv.fst = k then (k, v) else kv)) k' = rlookup r k' := by
  induction r with
  | nil => rfl
  | cons kv rest ih =>
    by_cases hh : kv.fst = k
    · simp [rlookup, hh, Ne.symm h, ih]
    · by_cases hkk : kv.fst = k'
      · simp [rlookup, hh, hkk, h]
      · simp [rlookup, hh, hkk, ih]

/-- Appending an entry for key `k` does not affect lookups of other keys. -/
lemma rlookup_append_single_ne (k k' : List Char) (v : Value) (r : FlatRecord)
    (h : k' ≠ k) :
    rlookup (r ++ [(k, v)]) k' = rlookup r k' := by
  induction r with
  | nil => simp [rlookup, Ne.symm h]
  | cons kv rest ih =>
    by_cases hkk : kv.fst = k'
    · simp [rlookup, hkk]
    · simp [rlookup, hkk, ih]

/-- Dict assignment affects no other key. -/
lemma rlookup_insertKV_ne (k k' : List Char) (v : Value) (r : FlatRecord)
    (h : k' ≠ k) :
    rlookup (insertKV k v r) k' = rlookup r k' := by
  unfold insertKV
  by_cases hany : r.any (fun kv => kv.fst = k) = true
  · rw [if_pos hany]
    exact rlookup_map_replace_ne k k' v r h
  · rw [if_neg hany]
    exact rlookup_append_single_ne k k' v r h

/-- After dict assignment, the assigned key holds the assigned value. -/
lemma rlookup_insertKV_self (k : List Char) (v : Value) (r : FlatRecord) :
    rlookup (insertKV k v r) k = some v := by
  unfold insertKV
  by_cases hany : r.any (fun kv => kv.fst = k) = true
  · rw [if_pos hany]
    induction r with
    | nil => cases hany
    | cons kv rest ih =>
      by_cases hh : kv.fst = k
      · simp [rlookup, hh]
      · have hany' : rest.any (fun kv => kv.fst = k) = true := by
          simpa [List.any_cons, hh] using hany
        simp [rlookup, hh, ih hany']
  · rw [if_neg hany]
    induction r with
    | nil => simp [rlookup]
    | cons kv rest ih =>
      have hh : ¬ (kv.fst = k) := by
        intro hc
        exact hany (by simp [List.any_cons, hc])
      have hany' : ¬ (rest.any (fun kv => kv.fst = k) = true) := by
        intro hc
        exact hany (by simp [List.any_cons, hc])
      simp [rlookup, hh, ih hany']

/-- Lookup through a value-only map. -/
lemma rlookup_map_kv (f : Value → Value) (r : FlatRecord) (k : List Char) :
    rlookup (r.map (fun kv => (kv.fst, f kv.snd))) k = (rlookup r k).map f := by
  induction r with
  | nil => rfl
  | cons kv rest ih =>
    by_cases hkk : kv.fst = k
    · simp [rlookup, hkk]
    · simp [rlookup, hkk, ih]

/-- Lookup through datetime normalization. -/
lemma rlookup_convert (r : FlatRecord) (k : List Char) :
    rlookup (convert_datetimes r) k = (rlookup r k).map convertValue := by
  unfold convert_datetimes
  exact rlookup_map_kv convertValue r k

/-- Every derived length key starts with `len_`. -/
lemma lenKey_take (p : List Char) : (lenKey p).take 4 = ks "len_" := by
  unfold lenKey
  have h4 : (ks "len_").length = 4 := by decide
  rw [← h4, List.take_left]

/-- A key that does not start with `len_` differs from every derived
length key. -/
lemma ne_lenKey {k : List Char} (h : k.take 4 ≠ ks "len_") (p : List Char) :
    k ≠ lenKey p := by
  intro hk
  rw [hk, lenKey_take] at h
  exact h rfl

/-- List-length inference only writes `len_`-keys. -/
lemma rlookup_set_list_length {k : List Char} (h : k.take 4 ≠ ks "len_")
    (p : List Char) (r : FlatRecord) :
    rlookup (set_list_length p r).2 k = rlookup r k := by
  unfold set_list_length
  cases hmax : maxNum p r with
  | none => rfl
  | some m => exact rlookup_insertKV_ne _ _ _ _ (ne_lenKey h p)

/-- A sequence of list-length inferences only writes `len_`-keys. -/
lemma rlookup_setLens {k : List Char} (h : k.take 4 ≠ ks "len_")
    (ps : List (List Char)) (r : FlatRecord) :
    rlookup (setLens ps r) k = rlookup r k := by
  induction ps generalizing r with
  | nil => rfl
  | cons p ps ih =>
    show rlookup (setLens ps (set_list_length p r).2) k = rlookup r k
    rw [ih, rlookup_set_list_length h]

/-- Folding a lookup-preserving step over a list preserves lookups. -/
lemma rlookup_foldl_step {α : Type} {k : List Char}
    (step : FlatRecord → α → FlatRecord)
    (hstep : ∀ r a, rlookup (step r a) k = rlookup r k) :
    ∀ (l : List α) (r : FlatRecord), rlookup (l.foldl step r) k = rlookup r k := by
  intro l
  induction l with
  | nil => intro r; rfl
  | cons a l ih =>
    intro r
    show rlookup (l.foldl step (step r a)) k = rlookup r k
    rw [ih, hstep]

/-- The base augmenter only writes `len_`-keys. -/
lemma rlookup_base_init {k : List Char} (h : k.take 4 ≠ ks "len_")
    (r : FlatRecord) : rlookup (base_init r) k = rlookup r k := by
  unfold base_init
  rw [rlookup_foldl_step _ ?hstep, rlookup_setLens h, rlookup_set_list_length h]
  case hstep =>
    intro r f
    show rlookup (setLens _ (set_list_length f r).2) k = rlookup r k
    rw [rlookup_setLens h, rlookup_set_list_length h]

/-- The contained-medication augmenter only writes `len_`-keys. -/
lemma rlookup_contained_med {k : List Char} (h : k.take 4 ≠ ks "len_")
    (r : FlatRecord) : rlookup (contained_med_resource_init r) k = rlookup r k := by
  unfold contained_med_resource_init
  rw [rlookup_setLens h, rlookup_set_list_length h]

/-- The Condition list-shape part only writes `len_`-keys. -/
lemma rlookup_condition_lens {k : List Char} (h : k.take 4 ≠ ks "len_")
    (r : FlatRecord) : rlookup (condition_lens r) k = rlookup r k := by
  unfold condition_lens
  simp only [rlookup_setLens h, rlookup_set_list_length h, rlookup_base_init h]

/-- The Observation list-shape part only writes `len_`-keys. -/
lemma rlookup_observation_lens {k : List Char} (h : k.take 4 ≠ ks "len_")
    (r : FlatRecord) : rlookup (observation_lens r) k = rlookup r k := by
  unfold observation_lens
  simp only [rlookup_setLens h, rlookup_set_list_length h, rlookup_base_init h]

/-- The Procedure list-shape part only writes `len_`-keys. -/
lemma rlookup_procedure_lens {k : List Char} (h : k.take 4 ≠ ks "len_")
    (r : FlatRecord) : rlookup (procedure_lens r) k = rlookup r k := by
  unfold procedure_lens
  simp only [rlookup_setLens h, rlookup_set_list_length h, rlookup_contained_med h,
    rlookup_base_init h]

/-- Direct-field promotion affects no other key. -/
lemma rlookup_promoteField_ne {k : List Char} (src tgt : List Char)
    (r : FlatRecord) (h : k ≠ tgt) :
    rlookup (promoteField src tgt r) k = rlookup r k := by
  unfold promoteField
  cases hv : rlookup r src with
  | none => rfl
  | some v => exact rlookup_insertKV_ne _ _ _ _ h

/-- C1 (code evaluated at the failing input): on a flattened Observation
record whose `effectivePeriod` is a mapping containing an `end` value, the
decoder does not complete and store the value under `end_date_time`; it
raises `NameError` for the undefined `KEY_END_DATE_TIME` (line 246). -/
theorem claim_C1 :
    decode_flattened_observation
        [(ks "effectivePeriod", Value.period none (some "2020-01-01"))]
      = .error (.nameError "KEY_END_DATE_TIME") := by
  rfl

/-- C6 (code evaluated at the failing input): an unparsable bundle payload
yields the empty sequence, but an unparsable single-Patient payload makes
the decoder raise `AttributeError` (the handler names the nonexistent
`json.decoder.JSONDecoderError`, lines 539-544) instead of printing a
report and yielding an empty result. -/
theorem claim_C6 :
    decode_bundle (JsonOutcome.fail "Expecting value: line 1 column 1 (char 0)") = .ok []
    ∧ decode_flattened_patient
        (.fromString (.fail "Expecting value: line 1 column 1 (char 0)"))
      = .error (.attributeError "JSONDecoderError") := by
  exact ⟨rfl, rfl⟩

/-- C7 (code evaluated at the failing input): a MedicationAdministration
record with keys under the indexed prefix `reasonNotGiven_0_coding` gets
`len_reasonNotGiven = 1`, but no `len_reasonNotGiven_0_coding` entry is
written, because the loop body passes the uninterpolated template prefix
(line 306, missing `.format(i)`). -/
theorem claim_C7 :
    decode_flattened_medication_administration
        [(ks "reasonNotGiven_0_coding_0_code", Value.str "c")]
      = .ok [(ks "reasonNotGiven_0_coding_0_code", Value.str "c"),
             (ks "len_reasonNotGiven", Value.num 1)]
    ∧ rlookup [(ks "reasonNotGiven_0_coding_0_code", Value.str "c"),
               (ks "len_reasonNotGiven", Value.num 1)]
        (ks "len_reasonNotGiven_0_coding") = none := by
  exact ⟨rfl, rfl⟩

/-- C2: every occurrence of the string value
`"2020-03-14T08:30:00.500-05:00"` in a flattened record is replaced by the
datetime-normalization pass with the full instant year 2020, month 3,
day 14, hour 8, minute 30, second 0, microsecond `500000 % 999999 =
500000`, and a UTC offset of -5 hours (-300 minutes), where the
collaborator's contractual decomposition of the time substring is hours 8,
minutes 30, seconds 0, 500000 microseconds of fractional seconds, sign
`-`, offset hours 5, offset minutes 0. -/
theorem claim_C2 (r : FlatRecord) (k : List Char)
    (h : (k, Value.str "2020-03-14T08:30:00.500-05:00") ∈ r) :
    (k, Value.dt 2020 3 14 (some (8, 30, 0, 500000, -300))) ∈ convert_datetimes r
    ∧ decomposeTime (ks "08:30:00.500-05:00")
        = some ⟨8, 30, 0, some 500000, some '-', some 5, some 0⟩
    ∧ 500000 % 999999 = 500000 := by
  refine ⟨?_, by decide, by decide⟩
  have himg : (fun kv : List Char × Value => (kv.fst, convertValue kv.snd))
      (k, Value.str "2020-03-14T08:30:00.500-05:00")
      = (k, Value.dt 2020 3 14 (some (8, 30, 0, 500000, -300))) := by
    show (k, convertValue (Value.str "2020-03-14T08:30:00.500-05:00"))
        = (k, Value.dt 2020 3 14 (some (8, 30, 0, 500000, -300)))
    congr 1
  have hmem := List.mem_map_of_mem
    (fun kv : List Char × Value => (kv.fst, convertValue kv.snd)) h
  rw [himg] at hmem
  exact hmem

/-- Witness for C2: a one-entry record holding the round-trip string. -/
theorem claim_C2_witness :
    ((ks "effectiveDateTime", Value.str "2020-03-14T08:30:00.500-05:00") ∈
        ([(ks "effectiveDateTime", Value.str "2020-03-14T08:30:00.500-05:00")] : FlatRecord))
    ∧ (ks "effectiveDateTime", Value.dt 2020 3 14 (some (8, 30, 0, 500000, -300))) ∈
        convert_datetimes [(ks "effectiveDateTime",
          Value.str "2020-03-14T08:30:00.500-05:00")] := by
  have h : (ks "effectiveDateTime", Value.str "2020-03-14T08:30:00.500-05:00") ∈
      ([(ks "effectiveDateTime", Value.str "2020-03-14T08:30:00.500-05:00")] : FlatRecord) := by
    decide
  exact ⟨h, (claim_C2 _ _ h).1⟩

/-- C10: the offset sign is applied to the offset hours only, never to the
offset minutes: a decomposition with sign `-`, hours `dh`, minutes `dm`
yields the stored offset `-(dh*60) + dm` minutes; in particular the offset
written `-05:30` is stored as -270 minutes = -(4 h 30 min), not
-(5 h 30 min). -/
theorem claim_C10 :
    (∀ (tv : TimeValue) (dh dm : Nat), tv.gmt_delta_sign = some '-' →
      tv.gmt_delta_hours = some dh → tv.gmt_delta_minutes = some dm →
      computeOffsetMinutes tv = -((dh : Int) * 60) + dm)
    ∧ parseDatetime "2020-01-01T00:00:00-05:30"
        = some (Value.dt 2020 1 1 (some (0, 0, 0, 0, -270)))
    ∧ ((-270 : Int) = -(4 * 60 + 30)) ∧ ((-270 : Int) ≠ -(5 * 60 + 30)) := by
  refine ⟨?_, by decide, by decide, by decide⟩
  intro tv dh dm hs hh hm
  unfold computeOffsetMinutes
  rw [hs, hh, hm]
  simp

/-- Witness for C10 at the decomposition of `-05:30`. -/
theorem claim_C10_witness :
    computeOffsetMinutes ⟨0, 0, 0, none, some '-', some 5, some 30⟩
      = -((5 : Int) * 60) + 30 :=
  claim_C10.1 ⟨0, 0, 0, none, some '-', some 5, some 30⟩ 5 30 rfl rfl rfl

/-- C3: a record whose resource-type discriminator is present but matches
none of the seven supported resource types decodes to `none` (not an
error), and removing such a record from a bundle does not change the
decoded output sequence — its result is omitted and the other records'
non-absent results are kept in input order. -/
theorem claim_C3 :
    (∀ (r : FlatRecord) (v : Value), rlookup r (ks "resourceType") = some v →
      v ∉ [Value.str "Patient", Value.str "Observation", Value.str "Procedure",
           Value.str "Condition", Value.str "MedicationStatement",
           Value.str "MedicationOrder", Value.str "MedicationAdministration"] →
      process_resource r = .ok none)
    ∧ (∀ (xs ys : List FlatRecord) (r : FlatRecord),
        process_resource r = .ok none →
        decode_bundle (.ok (xs ++ r :: ys)) = decode_bundle (.ok (xs ++ ys))) := by
  constructor
  · intro r v hv hnot
    have hf : rlookup (convert_datetimes (flatten r)) (ks "resourceType")
        = some (convertValue v) := by
      rw [rlookup_convert]
      simp [flatten, hv]
    unfold process_resource
    rw [hf, hv]
    cases v with
    | str s =>
      have h1 : s ≠ "Patient" := fun he => hnot (by rw [he]; simp)
      have h2 : s ≠ "Observation" := fun he => hnot (by rw [he]; simp)
      have h3 : s ≠ "Procedure" := fun he => hnot (by rw [he]; simp)
      have h4 : s ≠ "Condition" := fun he => hnot (by rw [he]; simp)
      have h5 : s ≠ "MedicationStatement" := fun he => hnot (by rw [he]; simp)
      have h6 : s ≠ "MedicationOrder" := fun he => hnot (by rw [he]; simp)
      have h7 : s ≠ "MedicationAdministration" := fun he => hnot (by rw [he]; simp)
      simp [h1, h2, h3, h4, h5, h6, h7]
    | num n => rfl
    | dt y mo d t => rfl
    | period a b => rfl
  · intro xs ys r hr
    induction xs with
    | nil =>
      show processList (r :: ys) = processList ys
      conv_lhs => unfold processList
      rw [hr]
      cases hys : processList ys with
      | error e => rfl
      | ok l => rfl
    | cons x xs ih =>
      show processList (x :: (xs ++ r :: ys)) = processList (x :: (xs ++ ys))
      conv_lhs => unfold processList
      conv_rhs => unfold processList
      cases hx : process_resource x with
      | error e => rfl
      | ok res =>
        have ih' : processList (xs ++ r :: ys) = processList (xs ++ ys) := ih
        rw [ih']

/-- Witness for C3 at a concrete unknown-type record and a one-element
bundle containing it. -/
theorem claim_C3_witness :
    process_resource [(ks "resourceType", Value.str "Unsupported")] = .ok none
    ∧ decode_bundle (.ok ([] ++ [(ks "resourceType", Value.str "Unsupported")] :: []))
        = decode_bundle (.ok ([] ++ [])) := by
  have h1 : process_resource [(ks "resourceType", Value.str "Unsupported")] = .ok none :=
    claim_C3.1 [(ks "resourceType", Value.str "Unsupported")]
      (Value.str "Unsupported") (by decide) (by decide)
  exact ⟨h1, claim_C3.2 [] [] _ h1⟩

/-- Sequencing after a successful step. -/
lemma except_bind_ok {α β : Type} (a : α) (f : α → Except PyError β) :
    (Except.ok a : Except PyError α).bind f = f a := rfl

/-- Sequencing after a raised exception propagates the exception. -/
lemma except_bind_error {α β : Type} (e : PyError) (f : α → Except PyError β) :
    (Except.error e : Except PyError α).bind f = .error e := rfl

/-- C9: the Condition decoder accesses `onsetPeriod['start']` and
`abatementPeriod['end']` unconditionally, so a present period lacking the
member makes decoding fail with a `KeyError` instead of leaving the
canonical key absent; the Observation and Procedure decoders guard the
same accesses with membership tests and complete, leaving `date_time`
absent. -/
theorem claim_C9 :
    (∀ (r : FlatRecord) (e : Option String),
      rlookup r (ks "onsetPeriod") = some (Value.period none e) →
      decode_flattened_condition r = .error (.keyError "start"))
    ∧ (∀ (r : FlatRecord) (s : Option String),
      (rlookup r (ks "onsetPeriod") = none ∨
        ∃ a b, rlookup r (ks "onsetPeriod") = some (Value.period (some a) b)) →
      rlookup r (ks "abatementPeriod") = some (Value.period s none) →
      decode_flattened_condition r = .error (.keyError "end"))
    ∧ (∀ (r : FlatRecord),
      rlookup r (ks "effectivePeriod") = some (Value.period none none) →
      rlookup r (ks "effectiveDateTime") = none →
      rlookup r (ks "date_time") = none →
      decode_flattened_observation r = .ok (observation_lens r)
        ∧ rlookup (observation_lens r) (ks "date_time") = none)
    ∧ (∀ (r : FlatRecord),
      rlookup r (ks "performedPeriod") = some (Value.period none none) →
      rlookup r (ks "performedDateTime") = none →
      rlookup r (ks "date_time") = none →
      decode_flattened_procedure r = .ok (procedure_lens r)
        ∧ rlookup (procedure_lens r) (ks "date_time") = none) := by
  refine ⟨?_, ?_, ?_, ?_⟩
  · intro r e hOP
    have h2 : rlookup (promoteField (ks "abatementDateTime") (ks "end_date_time")
        (promoteField (ks "onsetDateTime") (ks "date_time") r)) (ks "onsetPeriod")
        = some (Value.period none e) := by
      rw [rlookup_promoteField_ne _ _ _ (by decide),
          rlookup_promoteField_ne _ _ _ (by decide), hOP]
    have h3 : promotePeriodMember (ks "onsetPeriod") "start" (ks "date_time")
        (promoteField (ks "abatementDateTime") (ks "end_date_time")
          (promoteField (ks "onsetDateTime") (ks "date_time") r))
        = .error (.keyError "start") := by
      unfold promotePeriodMember
      rw [h2]
      rfl
    unfold decode_flattened_condition
    simp only [h3, except_bind_error]
  · intro r s hOPok hAP
    have hAP2 : rlookup (promoteField (ks "abatementDateTime") (ks "end_date_time")
        (promoteField (ks "onsetDateTime") (ks "date_time") r)) (ks "abatementPeriod")
        = some (Value.period s none) := by
      rw [rlookup_promoteField_ne _ _ _ (by decide),
          rlookup_promoteField_ne _ _ _ (by decide), hAP]
    rcases hOPok with hnone | ⟨a, b, hsome⟩
    · have hOP2 : rlookup (promoteField (ks "abatementDateTime") (ks "end_date_time")
          (promoteField (ks "onsetDateTime") (ks "date_time") r)) (ks "onsetPeriod")
          = none := by
        rw [rlookup_promoteField_ne _ _ _ (by decide),
            rlookup_promoteField_ne _ _ _ (by decide), hnone]
      have h3 : promotePeriodMember (ks "onsetPeriod") "start" (ks "date_time")
          (promoteField (ks "abatementDateTime") (ks "end_date_time")
            (promoteField (ks "onsetDateTime") (ks "date_time") r))
          = .ok (promoteField (ks "abatementDateTime") (ks "end_date_time")
              (promoteField (ks "onsetDateTime") (ks "date_time") r)) := by
        unfold promotePeriodMember
        rw [hOP2]
        rfl
      have h4 : promotePeriodMember (ks "abatementPeriod") "end" (ks "end_date_time")
          (promoteField (ks "abatementDateTime") (ks "end_date_time")
            (promoteField (ks "onsetDateTime") (ks "date_time") r))
          = .error (.keyError "end") := by
        unfold promotePeriodMember
        rw [hAP2]
        rfl
      unfold decode_flattened_condition
      simp only [h3, except_bind_ok, h4, except_bind_error]
    · have hOP2 : rlookup (promoteField (ks "abatementDateTime") (ks "end_date_time")
          (promoteField (ks "onsetDateTime") (ks "date_time") r)) (ks "onsetPeriod")
          = some (Value.period (some a) b) := by
        rw [rlookup_promoteField_ne _ _ _ (by decide),
            rlookup_promoteField_ne _ _ _ (by decide), hsome]
      have h3 : promotePeriodMember (ks "onsetPeriod") "start" (ks "date_time")
          (promoteField (ks "abatementDateTime") (ks "end_date_time")
            (promoteField (ks "onsetDateTime") (ks "date_time") r))
          = .ok (insertKV (ks "date_time") (.str a)
              (promoteField (ks "abatementDateTime") (ks "end_date_time")
                (promoteField (ks "onsetDateTime") (ks "date_time") r))) := by
        unfold promotePeriodMember
        rw [hOP2]
        rfl
      have hAP3 : rlookup (insertKV (ks "date_time") (Value.str a)
          (promoteField (ks "abatementDateTime") (ks "end_date_time")
            (promoteField (ks "onsetDateTime") (ks "date_time") r)))
          (ks "abatementPeriod") = some (Value.period s none) := by
        rw [rlookup_insertKV_ne _ _ _ _ (by decide), hAP2]
      have h4 : promotePeriodMember (ks "abatementPeriod") "end" (ks "end_date_time")
          (insertKV (ks "date_time") (Value.str a)
            (promoteField (ks "abatementDateTime") (ks "end_date_time")
              (promoteField (ks "onsetDateTime") (ks "date_time") r)))
          = .error (.keyError "end") := by
        unfold promotePeriodMember
        rw [hAP3]
        rfl
      unfold decode_flattened_condition
      simp only [h3, except_bind_ok, h4, except_bind_error]
  · intro r hEP hEDT hDT
    have h1 : promoteField (ks "effectiveDateTime") (ks "date_time") r = r := by
      unfold promoteField
      rw [hEDT]
    have h2 : promotePeriodBroken (ks "effectivePeriod") r = .ok r := by
      unfold promotePeriodBroken
      rw [hEP]
      rfl
    constructor
    · unfold decode_flattened_observation
      rw [h1, h2]
      simp only [except_bind_ok]
    · rw [rlookup_observation_lens (by decide), hDT]
  · intro r hPP hPDT hDT
    have h1 : promoteField (ks "performedDateTime") (ks "date_time") r = r := by
      unfold promoteField
      rw [hPDT]
    have h2 : promotePeriodGuarded (ks "performedPeriod") r = .ok r := by
      unfold promotePeriodGuarded
      rw [hPP]
      rfl
    constructor
    · unfold decode_flattened_procedure
      rw [h1, h2]
      simp only [except_bind_ok]
    · rw [rlookup_procedure_lens (by decide), hDT]

/-- Witness for C9 at concrete one-entry records: a Condition onset period
without `start`, a Condition abatement period without `end`, and
Observation/Procedure periods with neither member. -/
theorem claim_C9_witness :
    decode_flattened_condition [(ks "onsetPeriod", Value.period none none)]
      = .error (.keyError "start")
    ∧ decode_flattened_condition [(ks "abatementPeriod", Value.period none none)]
      = .error (.keyError "end")
    ∧ (decode_flattened_observation [(ks "effectivePeriod", Value.period none none)]
        = .ok (observation_lens [(ks "effectivePeriod", Value.period none none)])
      ∧ rlookup (observation_lens [(ks "effectivePeriod", Value.period none none)])
          (ks "date_time") = none)
    ∧ (decode_flattened_procedure [(ks "performedPeriod", Value.period none none)]
        = .ok (procedure_lens [(ks "performedPeriod", Value.period none none)])
      ∧ rlookup (procedure_lens [(ks "performedPeriod", Value.period none none)])
          (ks "date_time") = none) := by
  refine ⟨?_, ?_, ?_, ?_⟩
  · exact claim_C9.1 _ none (by decide)
  · exact claim_C9.2.1 _ none (Or.inl (by decide)) (by decide)
  · exact claim_C9.2.2.1 _ (by decide) (by decide) (by decide)
  · exact claim_C9.2.2.2 _ (by decide) (by decide) (by decide)

/-- C5 counterexample: a Condition record with only
`onsetPeriod.start = "2019-01-01"` and no `onsetDateTime`, decoded through
the full pipeline (datetime normalization, then the Condition decoder),
ends with `date_time` holding the raw string `"2019-01-01"` — not the
parsed start value, although the string does parse as a date-only
temporal value.  Datetime normalization examines only top-level string
entries, so values nested inside period mappings are never parsed. -/
theorem claim_C5_counterexample :
    process_resource [(ks "resourceType", Value.str "Condition"),
                      (ks "onsetPeriod", Value.period (some "2019-01-01") none)]
      = .ok (some [(ks "resourceType", Value.str "Condition"),
                   (ks "onsetPeriod", Value.period (some "2019-01-01") none),
                   (ks "date_time", Value.str "2019-01-01")])
    ∧ parseDatetime "2019-01-01" = some (Value.dt 2019 1 1 none)
    ∧ Value.str "2019-01-01" ≠ Value.dt 2019 1 1 none := by
  exact ⟨rfl, rfl, by decide⟩

/-- C5 (amended): for every flattened Condition record whose `onsetPeriod`
is a mapping with a `start` value (and whose `abatementPeriod`, if
present, carries an `end`, so that decoding completes), the decoder
returns successfully and `date_time` equals the period's raw start string,
whether or not `onsetDateTime` is present — the period wins, and the value
stored is the unparsed string, not a parsed temporal value. -/
theorem claim_C5 :
    ∀ (r : FlatRecord) (ps : String) (pe : Option String),
      rlookup r (ks "onsetPeriod") = some (Value.period (some ps) pe) →
      (rlookup r (ks "abatementPeriod") = none ∨
        ∃ a b, rlookup r (ks "abatementPeriod") = some (Value.period a (some b))) →
      ∃ out, decode_flattened_condition r = .ok out
        ∧ rlookup out (ks "date_time") = some (Value.str ps) := by
  intro r ps pe hOP hAPok
  have hOP2 : rlookup (promoteField (ks "abatementDateTime") (ks "end_date_time")
      (promoteField (ks "onsetDateTime") (ks "date_time") r)) (ks "onsetPeriod")
      = some (Value.period (some ps) pe) := by
    rw [rlookup_promoteField_ne _ _ _ (by decide),
        rlookup_promoteField_ne _ _ _ (by decide), hOP]
  have h3 : promotePeriodMember (ks "onsetPeriod") "start" (ks "date_time")
      (promoteField (ks "abatementDateTime") (ks "end_date_time")
        (promoteField (ks "onsetDateTime") (ks "date_time") r))
      = .ok (insertKV (ks "date_time") (.str ps)
          (promoteField (ks "abatementDateTime") (ks "end_date_time")
            (promoteField (ks "onsetDateTime") (ks "date_time") r))) := by
    unfold promotePeriodMember
    rw [hOP2]
    rfl
  have hAPbase : rlookup (insertKV (ks "date_time") (Value.str ps)
      (promoteField (ks "abatementDateTime") (ks "end_date_time")
        (promoteField (ks "onsetDateTime") (ks "date_time") r))) (ks "abatementPeriod")
      = rlookup r (ks "abatementPeriod") := by
    rw [rlookup_insertKV_ne _ _ _ _ (by decide),
        rlookup_promoteField_ne _ _ _ (by decide),
        rlookup_promoteField_ne _ _ _ (by decide)]
  rcases hAPok with hnone | ⟨a, b, hsome⟩
  · have h4 : promotePeriodMember (ks "abatementPeriod") "end" (ks "end_date_time")
        (insertKV (ks "date_time") (Value.str ps)
          (promoteField (ks "abatementDateTime") (ks "end_date_time")
            (promoteField (ks "onsetDateTime") (ks "date_time") r)))
        = .ok (insertKV (ks "date_time") (Value.str ps)
            (promoteField (ks "abatementDateTime") (ks "end_date_time")
              (promoteField (ks "onsetDateTime") (ks "date_time") r))) := by
      unfold promotePeriodMember
      rw [hAPbase, hnone]
      rfl
    refine ⟨condition_lens (insertKV (ks "date_time") (Value.str ps)
        (promoteField (ks "abatementDateTime") (ks "end_date_time")
          (promoteField (ks "onsetDateTime") (ks "date_time") r))), ?_, ?_⟩
    · unfold decode_flattened_condition
      simp only [h3, except_bind_ok, h4]
    · rw [rlookup_condition_lens (by decide), rlookup_insertKV_self]
  · have h4 : promotePeriodMember (ks "abatementPeriod") "end" (ks "end_date_time")
        (insertKV (ks "date_time") (Value.str ps)
          (promoteField (ks "abatementDateTime") (ks "end_date_time")
            (promoteField (ks "onsetDateTime") (ks "date_time") r)))
        = .ok (insertKV (ks "end_date_time") (.str b)
            (insertKV (ks "date_time") (Value.str ps)
              (promoteField (ks "abatementDateTime") (ks "end_date_time")
                (promoteField (ks "onsetDateTime") (ks "date_time") r)))) := by
      unfold promotePeriodMember
      rw [hAPbase, hsome]
      rfl
    refine ⟨condition_lens (insertKV (ks "end_date_time") (Value.str b)
        (insertKV (ks "date_time") (Value.str ps)
          (promoteField (ks "abatementDateTime") (ks "end_date_time")
            (promoteField (ks "onsetDateTime") (ks "date_time") r)))), ?_, ?_⟩
    · unfold decode_flattened_condition
      simp only [h3, except_bind_ok, h4]
    · rw [rlookup_condition_lens (by decide),
          rlookup_insertKV_ne _ _ _ _ (by decide), rlookup_insertKV_self]

/-- Witness for C5 at a record carrying both `onsetDateTime` and a period
start: the decoder completes with `date_time` holding the period's raw
start string (the period wins over the direct field). -/
theorem claim_C5_witness :
    ∃ out, decode_flattened_condition
        [(ks "onsetDateTime", Value.str "2018-05-05"),
         (ks "onsetPeriod", Value.period (some "2019-01-01") none)] = .ok out
      ∧ rlookup out (ks "date_time") = some (Value.str "2019-01-01") :=
  claim_C5 _ "2019-01-01" none (by decide) (Or.inl (by decide))

end CqlResultParser
